import Mathlib

/-!
Shallow embedding of `launch/substitutions/python_expression.py`
(the `PythonExpression` substitution of the `launch` package) together
with the collaborators it uses.  Code present in the repository is
translated directly; collaborators that the repository only imports
(the substitution base class, `ensure_argument_type`,
`normalize_to_list_of_substitutions`, `perform_substitutions`) are
modelled from the specification, as indicated in their doc comments.
-/

namespace LaunchPy

/-- Errors that the translated code can raise.  `typeError` carries the
Python `TypeError` message, `argTypeError` is the argument-type error of
`ensure_argument_type` (recording the offending parameter name and the
calling type name), `assertionError` models a failed `assert`,
`attributeError` models an `AttributeError` (for example performing a
context-dependent substitution with a `None` context), and
`moduleNotFoundError` models `importlib` failing to locate a module. -/
inductive LaunchError where
  | typeError (msg : String)
  | argTypeError (parameter caller : String)
  | assertionError
  | attributeError (msg : String)
  | moduleNotFoundError (name : String)
deriving DecidableEq, Repr

/-- Modelled from the spec: the launch resolution context, reduced to the
one capability this component uses, resolving a context-dependent
substitution key to text. -/
def LaunchContext : Type := String → String

/-- Modelled from the spec: a substitution instance.  `text` is the
constant `TextSubstitution` (its `perform` ignores the context);
`ctxDep` is any context-dependent substitution (for example a launch
configuration lookup), which needs a live context to perform. -/
inductive Substitution where
  | text (t : String)
  | ctxDep (key : String)
deriving DecidableEq, Repr

/-- Modelled from the spec: the display text of a substitution. -/
def Substitution.describeSub : Substitution → String
  | .text t => t
  | .ctxDep k => "LaunchConfiguration(" ++ k ++ ")"

/-- Modelled from the spec: `context.perform_substitution(sub)` with a
live context. -/
def perform_substitution (ctx : LaunchContext) : Substitution → String
  | .text t => t
  | .ctxDep k => ctx k

/-- Modelled from the spec: calling `sub.perform(None)` as the parse
path does.  A `TextSubstitution` ignores its context argument and
returns its text; a context-dependent substitution dereferences the
`None` context and raises an `AttributeError`. -/
def Substitution.performNoneCtx : Substitution → Except LaunchError String
  | .text t => .ok t
  | .ctxDep _ => .error (.attributeError "NoneType object has no usable context")

/-- Python atoms that can occur as elements of an argument collection:
strings, substitutions, integers and `None`.  Integers and `None` model
values outside the `SomeSubstitutionsType` union. -/
inductive PyAtom where
  | str (s : String)
  | sub (s : Substitution)
  | int (n : Int)
  | noneA
deriving DecidableEq, Repr

/-- Python values passed as whole arguments: a string, a substitution,
an iterable of atoms, or values outside the allowed union (an integer
or `None`). -/
inductive PyValue where
  | str (s : String)
  | sub (s : Substitution)
  | iter (xs : List PyAtom)
  | int (n : Int)
  | noneV
deriving DecidableEq, Repr

/-- Predicate for `isinstance(v, (str, Substitution, collections.abc.Iterable))`:
in Python a string is iterable, a list of anything is iterable, and an
integer or `None` is not. -/
def isStrSubOrIterable : PyValue → Bool
  | .str _ => true
  | .sub _ => true
  | .iter _ => true
  | .int _ => false
  | .noneV => false

/-- Modelled from the spec: `ensure_argument_type` (from
`launch.utilities`, not part of the excerpt) fails with an
argument-type error identifying the offending parameter and the calling
type name when the value is outside the allowed set; here it is
instantiated at the set `(str, Substitution, Iterable)` used by
`PythonExpression`. -/
def ensure_argument_type (v : PyValue) (parameter caller : String) :
    Except LaunchError Unit :=
  if isStrSubOrIterable v then .ok () else .error (.argTypeError parameter caller)

/-- Modelled from the spec: normalize one element of an iterable
argument; a bare string becomes a trivial constant substitution, a
substitution is kept, anything else fails to normalize. -/
def normalizeAtom : PyAtom → Except LaunchError Substitution
  | .str t => .ok (.text t)
  | .sub s => .ok s
  | .int _ => .error (.typeError "Failed to normalize given value")
  | .noneA => .error (.typeError "Failed to normalize given value")

/-- Modelled from the spec: the normalization utility converting a
string, a single substitution, or an iterable of either into an ordered
list of primitive substitutions (bare strings become trivial constant
substitutions); normalization is deterministic and order-preserving. -/
def normalize_to_list_of_substitutions : PyValue → Except LaunchError (List Substitution)
  | .str t => .ok [.text t]
  | .sub s => .ok [s]
  | .iter xs => xs.mapM normalizeAtom
  | .int _ => .error (.typeError "Failed to normalize given value")
  | .noneV => .error (.typeError "Failed to normalize given value")

/-- The `PythonExpression` data after construction: the normalized
expression fragments and the normalized module-name substitutions. -/
structure PythonExpression where
  expression : List Substitution
  python_modules : List Substitution
deriving DecidableEq, Repr

/-- The default value of the `python_modules` parameter: the literal
list containing the single string naming the math module. -/
def pythonModulesDefault : PyValue := .iter [.str "math"]

/-- Translation of `PythonExpression.__init__`: check both arguments
with `ensure_argument_type` (naming the parameter and the class), then
normalize both into lists of substitutions. -/
def PythonExpression.init (expression python_modules : PyValue) :
    Except LaunchError PythonExpression :=
  match ensure_argument_type expression "expression" "PythonExpression" with
  | .error e => .error e
  | .ok _ =>
    match ensure_argument_type python_modules "python_modules" "PythonExpression" with
    | .error e => .error e
    | .ok _ =>
      match normalize_to_list_of_substitutions expression with
      | .error e => .error e
      | .ok exprSubs =>
        match normalize_to_list_of_substitutions python_modules with
        | .error e => .error e
        | .ok moduleSubs => .ok ⟨exprSubs, moduleSubs⟩

/-- Construction with the `python_modules` argument omitted, so that
the default `['math']` is used. -/
def PythonExpression.initDefault (expression : PyValue) :
    Except LaunchError PythonExpression :=
  PythonExpression.init expression pythonModulesDefault

/-- Characters stripped by Python `str.strip()` with no argument. -/
def pyIsSpace (c : Char) : Bool :=
  c = ' ' || c = '\t' || c = '\n' || c = '\x0d' || c = '\x0b' || c = '\x0c'

/-- Python `str.strip()`: drop leading and trailing whitespace. -/
def pyStrip (s : String) : String :=
  String.mk (((s.data.dropWhile pyIsSpace).reverse.dropWhile pyIsSpace).reverse)

/-- Helper for `pySplitComma`, working on the character list. -/
def pySplitCommaAux : List Char → List (List Char)
  | [] => [[]]
  | c :: cs =>
    if c = ',' then [] :: pySplitCommaAux cs
    else
      match pySplitCommaAux cs with
      | [] => [[c]]
      | w :: ws => (c :: w) :: ws

/-- Python `s.split(',')`: split on every comma, keeping empty pieces,
so that the empty string yields one empty piece. -/
def pySplitComma (s : String) : List String :=
  (pySplitCommaAux s.data).map String.mk

/-- Performing one element of the second argument group with a `None`
context, as `modules[0].perform(None)` does: a substitution is
performed with no context, while a string, integer or `None` has no
`perform` attribute at all. -/
def pyAtomPerformNone : PyAtom → Except LaunchError String
  | .sub s => s.performNoneCtx
  | .str _ => .error (.attributeError "str object has no attribute perform")
  | .int _ => .error (.attributeError "int object has no attribute perform")
  | .noneA => .error (.attributeError "NoneType object has no attribute perform")

/-- The message of the argument-count `TypeError` raised by `parse`. -/
def argCountErrorMsg : String := "eval substitution expects 1 or 2 arguments"

/-- Result of `PythonExpression.parse`: the keyword arguments handed
back to the constructor.  `python_modules = none` means the keyword is
absent (so construction uses the default), `some names` means the
parsed module-name list is passed. -/
structure ParseResult where
  expression : PyValue
  python_modules : Option (List String)
deriving DecidableEq, Repr

/-- Translation of `PythonExpression.parse`: raise the argument-count
error unless there are 1 or 2 argument groups; pass the first group
through unchanged; with a second group, assert it is neither a string
nor a single substitution, convert it to a list (a non-iterable raises
a `TypeError`), and if non-empty perform its first element with a
`None` context and split the resulting comma-separated text into
stripped module names. -/
def PythonExpression.parse (data : List PyValue) : Except LaunchError ParseResult :=
  match data with
  | [e] => .ok ⟨e, none⟩
  | [e, g] =>
    match g with
    | .str _ => .error .assertionError
    | .sub _ => .error .assertionError
    | .iter xs =>
      match xs with
      | [] => .ok ⟨e, some []⟩
      | m :: _ =>
        match pyAtomPerformNone m with
        | .error err => .error err
        | .ok s => .ok ⟨e, some ((pySplitComma s).map pyStrip)⟩
    | .int _ => .error (.typeError "argument of type int is not iterable")
    | .noneV => .error (.typeError "argument of type NoneType is not iterable")
  | _ => .error (.typeError argCountErrorMsg)

/-- Applying a parse result: hand the keyword arguments to the
constructor, the parsed module names as a list of plain strings, or
nothing so that the constructor default applies. -/
def applyParseResult (r : ParseResult) : Except LaunchError PythonExpression :=
  match r.python_modules with
  | none => PythonExpression.initDefault r.expression
  | some names => PythonExpression.init r.expression (.iter (names.map PyAtom.str))

/-- A loaded Python module, reduced to what `perform` inspects: its
canonical name (`module.__name__`) and the keys of `vars(module)`. -/
structure PyModule where
  name : String
  memberNames : List String
deriving DecidableEq, Repr

/-- Modelled from the running environment: the keys of `vars(math)` for
the CPython `math` module (module attributes plus every exported
function and constant). -/
def mathModuleMembers : List String :=
  ["__name__", "__doc__", "__package__", "__loader__", "__spec__",
   "acos", "acosh", "asin", "asinh", "atan", "atan2", "atanh",
   "ceil", "comb", "copysign", "cos", "cosh", "degrees", "dist",
   "e", "erf", "erfc", "exp", "expm1", "fabs", "factorial", "floor",
   "fmod", "frexp", "fsum", "gamma", "gcd", "hypot", "inf",
   "isclose", "isfinite", "isinf", "isnan", "isqrt", "lcm", "ldexp",
   "lgamma", "log", "log10", "log1p", "log2", "modf", "nan",
   "nextafter", "perm", "pi", "pow", "prod", "radians", "remainder",
   "sin", "sinh", "sqrt", "tan", "tanh", "tau", "trunc", "ulp"]

/-- The CPython `math` module. -/
def mathModule : PyModule := ⟨"math", mathModuleMembers⟩

/-- Modelled from the running environment: the keys of
`vars(statistics)` for the CPython `statistics` module (module
attributes plus its public exports). -/
def statisticsModuleMembers : List String :=
  ["__name__", "__doc__", "__package__", "__loader__", "__spec__",
   "__all__", "StatisticsError", "NormalDist", "correlation",
   "covariance", "fmean", "geometric_mean", "harmonic_mean",
   "linear_regression", "mean", "median", "median_grouped",
   "median_high", "median_low", "mode", "multimode", "pstdev",
   "pvariance", "quantiles", "stdev", "variance"]

/-- The CPython `statistics` module. -/
def statisticsModule : PyModule := ⟨"statistics", statisticsModuleMembers⟩

/-- Modelled from the running environment: the modules importable in
the hosting process that this development exercises (the two stdlib
modules named by the specification). -/
def moduleRegistry : List PyModule := [mathModule, statisticsModule]

/-- Modelled from the running environment:
`importlib.import_module(name)` returns the module registered under
`name` or raises a module-not-found error. -/
def import_module (name : String) : Except LaunchError PyModule :=
  match moduleRegistry.find? (fun m => m.name == name) with
  | some m => .ok m
  | none => .error (.moduleNotFoundError name)

/-- The list comprehension importing every named module in order,
propagating the first failure. -/
def importAll : List String → Except LaunchError (List PyModule)
  | [] => .ok []
  | n :: rest =>
    match import_module n with
    | .error e => .error e
    | .ok m =>
      match importAll rest with
      | .error e => .error e
      | .ok ms => .ok (m :: ms)

/-- Values bound in the evaluation namespace: a module object, a member
of a module (value left abstract), or plain data. -/
inductive NsVal where
  | moduleV (name : String)
  | memberV (moduleName member : String)
  | intV (n : Int)
  | strV (s : String)
deriving DecidableEq, Repr

/-- A Python dict keyed by strings, viewed through lookup. -/
def PyDict : Type := String → Option NsVal

/-- The empty dict `{}`. -/
def emptyDict : PyDict := fun _ => none

/-- First-some choice on optional values. -/
def optOr : Option NsVal → Option NsVal → Option NsVal
  | some v, _ => some v
  | none, b => b

/-- Dict item assignment `d[k] = v`. -/
def dictInsert (d : PyDict) (k : String) (v : NsVal) : PyDict :=
  fun x => if x = k then some v else d x

/-- Dict `d.update(entries)`: entries override existing bindings. -/
def dictUpdate (d : PyDict) (entries : List (String × NsVal)) : PyDict :=
  fun x => optOr (List.lookup x entries) (d x)

/-- The dict `vars(module)`: each member name bound to that member. -/
def varsOf (m : PyModule) : List (String × NsVal) :=
  m.memberNames.map (fun nm => (nm, NsVal.memberV m.name nm))

/-- One iteration of the namespace-building loop in `perform`: merge
`vars(module)` when the module's canonical name is exactly `math`, then
bind the canonical name to the module object. -/
def buildLocalsStep (acc : PyDict) (m : PyModule) : PyDict :=
  dictInsert (if m.name = "math" then dictUpdate acc (varsOf m) else acc)
    m.name (.moduleV m.name)

/-- The `expression_locals` dict built by `perform` from the loaded
modules, in order. -/
def buildLocals (mods : List PyModule) : PyDict :=
  mods.foldl buildLocalsStep emptyDict

/-- Modelled from the running environment: a (non-exhaustive) list of
CPython builtin names; the development relies only on membership facts
that hold in CPython, such as `len` being a builtin. -/
def pyBuiltinNames : List String :=
  ["len", "abs", "str", "int", "float", "bool", "min", "max", "sum",
   "__import__", "open", "eval", "exec", "print", "range", "list",
   "dict", "set", "tuple", "ord", "chr", "round", "pow", "repr",
   "type", "isinstance", "getattr", "setattr"]

/-- Whether a globals mapping carries its own `__builtins__` entry. -/
def globalsHasBuiltinsKey (g : List (String × NsVal)) : Bool :=
  (List.lookup "__builtins__" g).isSome

/-- Modelled from the Python language reference for `eval`: a name in
the evaluated expression resolves through the locals mapping, then the
globals mapping; and when the supplied globals mapping lacks the key
`__builtins__`, a reference to the builtins module is inserted before
evaluation, so builtin names also resolve. -/
def evalNameResolvable (g : List (String × NsVal)) (locals : PyDict)
    (name : String) : Bool :=
  (locals name).isSome || (List.lookup name g).isSome ||
    (!globalsHasBuiltinsKey g && decide (name ∈ pyBuiltinNames))

/-- The globals argument that `perform` passes to `eval`: the empty
dict literal `{}`. -/
def performEvalGlobals : List (String × NsVal) := []

/-- Python `str()` on the values our namespace can hold. -/
def pyStr : NsVal → String
  | .intV n => toString n
  | .strV s => s
  | .moduleV n => "<module " ++ n ++ ">"
  | .memberV m a => "<member " ++ m ++ "." ++ a ++ ">"

/-- Modelled from the spec: `perform_substitutions` resolves each
substitution against the context and concatenates the pieces in
order. -/
def perform_substitutions (ctx : LaunchContext) (subs : List Substitution) : String :=
  String.join (subs.map (perform_substitution ctx))

/-- The semantics of Python `eval` on a source string and a locals
dict, left as a parameter of the embedding: the hosting interpreter
evaluates arbitrary Python source, which is outside this development. -/
def PyEvalFn : Type := String → PyDict → Except LaunchError NsVal

/-- Translation of `PythonExpression.perform`, parameterized by the
hosting interpreter's `eval`: resolve the module-name substitutions
against the context, import every named module (propagating failures),
build `expression_locals`, resolve and concatenate the expression
fragments, evaluate that source with the empty globals dict and the
built locals, and convert the result with `str()`. -/
def PythonExpression.perform (evalF : PyEvalFn) (pe : PythonExpression)
    (ctx : LaunchContext) : Except LaunchError String :=
  let module_names := pe.python_modules.map (perform_substitution ctx)
  match importAll module_names with
  | .error e => .error e
  | .ok module_objects =>
    let expression_locals := buildLocals module_objects
    match evalF (perform_substitutions ctx pe.expression) expression_locals with
    | .error e => .error e
    | .ok v => .ok (pyStr v)

/-- Translation of `PythonExpression.describe`. -/
def PythonExpression.describe (pe : PythonExpression) : String :=
  "PythonExpr(" ++
    String.intercalate " + " (pe.expression.map Substitution.describeSub) ++
    ", [" ++
    String.intercalate ", " (pe.python_modules.map Substitution.describeSub) ++
    "])"

/-- Method-call view of `perform`, returning the result together with
the post-state of the instance; the method body never assigns to a
field of `self`, so the post-state is the receiver itself. -/
def PythonExpression.performM (evalF : PyEvalFn) (pe : PythonExpression)
    (ctx : LaunchContext) : Except LaunchError String × PythonExpression :=
  (pe.perform evalF ctx, pe)

/-- Method-call view of `describe`, with the post-state. -/
def PythonExpression.describeM (pe : PythonExpression) :
    String × PythonExpression :=
  (pe.describe, pe)

/-- Method-call view of the read-only `expression` accessor. -/
def PythonExpression.expressionM (pe : PythonExpression) :
    List Substitution × PythonExpression :=
  (pe.expression, pe)

/-- Method-call view of the read-only `python_modules` accessor. -/
def PythonExpression.pythonModulesM (pe : PythonExpression) :
    List Substitution × PythonExpression :=
  (pe.python_modules, pe)

/-- A call to one of the public operations of a constructed instance. -/
inductive MethodCall where
  | performCall (evalF : PyEvalFn) (ctx : LaunchContext)
  | describeCall
  | expressionCall
  | pythonModulesCall

/-- State reached after running one method call on an instance. -/
def runMethod (pe : PythonExpression) (c : MethodCall) : PythonExpression :=
  match c with
  | .performCall evalF ctx => (pe.performM evalF ctx).2
  | .describeCall => pe.describeM.2
  | .expressionCall => pe.expressionM.2
  | .pythonModulesCall => pe.pythonModulesM.2

/-- The binding that processing one module writes for one key, if any:
the module object under its canonical name, or (for the math module
only) the member under its own name. -/
def moduleWrite (m : PyModule) (x : String) : Option NsVal :=
  if x = m.name then some (.moduleV m.name)
  else if m.name = "math" then List.lookup x (varsOf m)
  else none

/-- The overriding (last) write for one key over a module list, later
modules overriding earlier ones. -/
def lastWrite : List PyModule → String → Option NsVal
  | [], _ => none
  | m :: rest, x => optOr (lastWrite rest x) (moduleWrite m x)

/-- A stub interpreter agreeing with Python on the one source string
`3 + 4`, used to instantiate evaluator hypotheses. -/
def mockEvalArith : PyEvalFn :=
  fun src _ => if src = "3 + 4" then .ok (.intV 7) else .error (.typeError "mock")

end LaunchPy

namespace LaunchPy

example : buildLocals [mathModule] "len" = none := by decide

example : buildLocals [mathModule] "sqrt" = some (.memberV "math" "sqrt") := by decide

example : buildLocals [mathModule, statisticsModule] "statistics" =
    some (.moduleV "statistics") := by decide

example : evalNameResolvable performEvalGlobals (buildLocals [mathModule]) "len" = true := by
  decide

example : importAll ["math", "statistics"] = .ok [mathModule, statisticsModule] := rfl

example : PythonExpression.initDefault (.str "3 + 4") =
    .ok ⟨[.text "3 + 4"], [.text "math"]⟩ := rfl

example : PythonExpression.init (.int 5) pythonModulesDefault =
    .error (.argTypeError "expression" "PythonExpression") := rfl

example : PythonExpression.parse [.str "a", .iter [.sub (.text "math, statistics")]] =
    .ok ⟨.str "a", some ["math", "statistics"]⟩ := rfl

example : PythonExpression.parse [.str "a", .iter []] = .ok ⟨.str "a", some []⟩ := rfl

example : PythonExpression.parse [] = .error (.typeError argCountErrorMsg) := rfl

end LaunchPy

namespace LaunchPy

theorem optOr_none_right (a : Option NsVal) : optOr a none = a := by
  cases a <;> rfl

theorem optOr_assoc (a b c : Option NsVal) :
    optOr (optOr a b) c = optOr a (optOr b c) := by
  cases a <;> rfl

theorem buildLocalsStep_apply (acc : PyDict) (m : PyModule) (x : String) :
    buildLocalsStep acc m x = optOr (moduleWrite m x) (acc x) := by
  unfold buildLocalsStep moduleWrite dictInsert dictUpdate
  by_cases hx : x = m.name
  · simp [hx, optOr]
  · by_cases hm : m.name = "math"
    · have hx' : ¬x = "math" := by rw [← hm]; exact hx
      simp [hx', hm]
    · simp [hx, hm, optOr]

theorem foldl_buildLocalsStep (mods : List PyModule) :
    ∀ (acc : PyDict) (x : String),
      List.foldl buildLocalsStep acc mods x = optOr (lastWrite mods x) (acc x) := by
  induction mods with
  | nil => intro acc x; simp [lastWrite, optOr]
  | cons m rest ih =>
    intro acc x
    have h1 : List.foldl buildLocalsStep acc (m :: rest) x =
        List.foldl buildLocalsStep (buildLocalsStep acc m) rest x := rfl
    rw [h1, ih, buildLocalsStep_apply]
    show optOr (lastWrite rest x) (optOr (moduleWrite m x) (acc x)) = _
    rw [← optOr_assoc]
    rfl

theorem buildLocals_apply (mods : List PyModule) (x : String) :
    buildLocals mods x = lastWrite mods x := by
  unfold buildLocals
  rw [foldl_buildLocalsStep]
  exact optOr_none_right _

theorem lookup_map_members (mname : String) (l : List String) (x : String) :
    List.lookup x (l.map (fun nm => (nm, NsVal.memberV mname nm))) =
      if x ∈ l then some (NsVal.memberV mname x) else none := by
  induction l with
  | nil => simp
  | cons n rest ih =>
    by_cases h : x = n
    · subst h
      simp [List.lookup]
    · have hb : (x == n) = false := by simp [h]
      simp [List.lookup, hb, ih, h]

theorem import_module_cases (n : String) (m : PyModule)
    (h : import_module n = .ok m) : m = mathModule ∨ m = statisticsModule := by
  unfold import_module at h
  cases hfind : List.find? (fun mm => mm.name == n) moduleRegistry with
  | none => rw [hfind] at h; cases h
  | some mm =>
    rw [hfind] at h
    have hm : mm = m := by injection h
    have hmem : mm ∈ moduleRegistry := List.mem_of_find?_eq_some hfind
    rw [← hm]
    simpa [moduleRegistry] using hmem

theorem importAll_mem (names : List String) (mods : List PyModule)
    (h : importAll names = .ok mods) :
    ∀ m ∈ mods, m = mathModule ∨ m = statisticsModule := by
  induction names generalizing mods with
  | nil =>
    unfold importAll at h
    cases h
    intro m hm
    cases hm
  | cons n rest ih =>
    unfold importAll at h
    cases h1 : import_module n with
    | error e => rw [h1] at h; cases h
    | ok m0 =>
      rw [h1] at h
      cases h2 : importAll rest with
      | error e => rw [h2] at h; cases h
      | ok ms =>
        rw [h2] at h
        cases h
        intro m hm
        rcases List.mem_cons.mp hm with hm0 | hms
        · exact hm0 ▸ import_module_cases n m0 h1
        · exact ih ms h2 m hms

theorem lastWrite_registry_name (mods : List PyModule)
    (hreg : ∀ m ∈ mods, m = mathModule ∨ m = statisticsModule)
    (x : String) (hx : x = "math" ∨ x = "statistics") :
    lastWrite mods x = some (.moduleV x) ∨ lastWrite mods x = none := by
  induction mods with
  | nil => right; rfl
  | cons m rest ih =>
    have hrest := ih (fun mm hmm => hreg mm (List.mem_cons_of_mem m hmm))
    have hstep : lastWrite (m :: rest) x = optOr (lastWrite rest x) (moduleWrite m x) := rfl
    rw [hstep]
    rcases hrest with hs | hn
    · left; rw [hs]; rfl
    · rw [hn]
      have hw : moduleWrite m x = some (.moduleV x) ∨ moduleWrite m x = none := by
        rcases hreg m (List.mem_cons_self m rest) with hm | hm <;>
          rcases hx with hx | hx <;> subst hm <;> subst hx
        · left; decide
        · right; decide
        · right; decide
        · left; decide
      rcases hw with hw | hw <;> rw [hw]
      · left; rfl
      · right; rfl

theorem lastWrite_name_of_mem (mods : List PyModule)
    (hreg : ∀ m ∈ mods, m = mathModule ∨ m = statisticsModule) :
    ∀ m ∈ mods, lastWrite mods m.name = some (.moduleV m.name) := by
  induction mods with
  | nil => intro m hm; cases hm
  | cons m0 rest ih =>
    intro m hm
    have hreg' := fun mm hmm => hreg mm (List.mem_cons_of_mem m0 hmm)
    rcases List.mem_cons.mp hm with h0 | hr
    · subst h0
      have hstep : lastWrite (m :: rest) m.name =
          optOr (lastWrite rest m.name) (moduleWrite m m.name) := rfl
      rw [hstep]
      have hw : moduleWrite m m.name = some (.moduleV m.name) := by
        unfold moduleWrite; rw [if_pos rfl]
      have hname : m.name = "math" ∨ m.name = "statistics" := by
        rcases hreg m (List.mem_cons_self m rest) with h | h <;> subst h
        · left; rfl
        · right; rfl
      rcases lastWrite_registry_name rest hreg' m.name hname with hs | hn
      · rw [hs]; rfl
      · rw [hn, hw]; rfl
    · have hstep : lastWrite (m0 :: rest) m.name =
          optOr (lastWrite rest m.name) (moduleWrite m0 m.name) := rfl
      rw [hstep, ih hreg' m hr]
      rfl

theorem lastWrite_not_name (mods : List PyModule)
    (hreg : ∀ m ∈ mods, m = mathModule ∨ m = statisticsModule)
    (x : String) (hx : x ∉ mods.map PyModule.name) :
    lastWrite mods x =
      if mathModule ∈ mods ∧ x ∈ mathModuleMembers then some (.memberV "math" x)
      else none := by
  induction mods with
  | nil => simp [lastWrite]
  | cons m0 rest ih =>
    have hx1 : ¬x = m0.name := by
      intro hc
      exact hx (by rw [hc]; exact List.mem_map_of_mem PyModule.name (List.mem_cons_self m0 rest))
    have hx2 : x ∉ rest.map PyModule.name := by
      intro hc
      exact hx (List.mem_cons_of_mem m0.name hc)
    have hreg' := fun mm hmm => hreg mm (List.mem_cons_of_mem m0 hmm)
    have hstep : lastWrite (m0 :: rest) x =
        optOr (lastWrite rest x) (moduleWrite m0 x) := rfl
    rw [hstep, ih hreg' hx2]
    rcases hreg m0 (List.mem_cons_self m0 rest) with h0 | h0 <;> subst h0
    · have hw : moduleWrite mathModule x =
          if x ∈ mathModuleMembers then some (.memberV "math" x) else none := by
        unfold moduleWrite
        rw [if_neg hx1, if_pos (show mathModule.name = "math" from rfl)]
        unfold varsOf
        rw [lookup_map_members]
        rfl
      rw [hw]
      by_cases hmem : x ∈ mathModuleMembers
      · rw [if_pos hmem]
        rw [if_pos (⟨List.mem_cons_self mathModule rest, hmem⟩ :
          mathModule ∈ mathModule :: rest ∧ x ∈ mathModuleMembers)]
        by_cases hr : mathModule ∈ rest
        · rw [if_pos (⟨hr, hmem⟩ : mathModule ∈ rest ∧ x ∈ mathModuleMembers)]; rfl
        · rw [if_neg (fun hc => hr hc.1 :
            ¬(mathModule ∈ rest ∧ x ∈ mathModuleMembers))]; rfl
      · rw [if_neg hmem, if_neg (fun hc => hmem hc.2), if_neg (fun hc => hmem hc.2)]
        rfl
    · have hw : moduleWrite statisticsModule x = none := by
        unfold moduleWrite
        rw [if_neg hx1, if_neg (by decide : ¬statisticsModule.name = "math")]
      rw [hw, optOr_none_right]
      by_cases hc : mathModule ∈ rest ∧ x ∈ mathModuleMembers
      · rw [if_pos hc, if_pos ⟨List.mem_cons_of_mem _ hc.1, hc.2⟩]
      · rw [if_neg hc, if_neg (fun hcc => hc
          ⟨(List.mem_cons.mp hcc.1).resolve_left (by decide), hcc.2⟩)]

theorem init_python_modules_eq (e m : PyValue) (subs : List Substitution)
    (pe : PythonExpression)
    (hm : normalize_to_list_of_substitutions m = .ok subs)
    (h : PythonExpression.init e m = .ok pe) : pe.python_modules = subs := by
  unfold PythonExpression.init at h
  cases h1 : ensure_argument_type e "expression" "PythonExpression" with
  | error err => rw [h1] at h; cases h
  | ok u =>
    rw [h1] at h
    cases h2 : ensure_argument_type m "python_modules" "PythonExpression" with
    | error err => rw [h2] at h; cases h
    | ok u2 =>
      rw [h2] at h
      cases h3 : normalize_to_list_of_substitutions e with
      | error err => rw [h3] at h; cases h
      | ok es =>
        rw [h3, hm] at h
        have h4 : (⟨es, subs⟩ : PythonExpression) = pe := by injection h
        rw [← h4]

theorem pyAtomPerformNone_error (m : PyAtom) (err : LaunchError)
    (h : pyAtomPerformNone m = .error err) : ∃ msg, err = .attributeError msg := by
  cases m with
  | sub s =>
    cases s with
    | text t => cases h
    | ctxDep k =>
      have h1 : LaunchError.attributeError "NoneType object has no usable context" = err := by
        injection h
      exact ⟨_, h1.symm⟩
  | str s =>
    have h1 : LaunchError.attributeError "str object has no attribute perform" = err := by
      injection h
    exact ⟨_, h1.symm⟩
  | int n =>
    have h1 : LaunchError.attributeError "int object has no attribute perform" = err := by
      injection h
    exact ⟨_, h1.symm⟩
  | noneA =>
    have h1 : LaunchError.attributeError "NoneType object has no attribute perform" = err := by
      injection h
    exact ⟨_, h1.symm⟩

theorem parse_two_not_argcount (e g : PyValue) :
    PythonExpression.parse [e, g] ≠ .error (.typeError argCountErrorMsg) := by
  intro hc
  cases g with
  | str s => simp [PythonExpression.parse] at hc
  | sub s => simp [PythonExpression.parse] at hc
  | int n => simp [PythonExpression.parse, argCountErrorMsg] at hc
  | noneV => simp [PythonExpression.parse, argCountErrorMsg] at hc
  | iter xs =>
    cases xs with
    | nil => simp [PythonExpression.parse] at hc
    | cons m ms =>
      cases hpm : pyAtomPerformNone m with
      | error err =>
        rcases pyAtomPerformNone_error m err hpm with ⟨msg, hmsg⟩
        simp [PythonExpression.parse, hpm, hmsg] at hc
      | ok s => simp [PythonExpression.parse, hpm] at hc

theorem parse_ok_expression (data : List PyValue) (r : ParseResult)
    (h : PythonExpression.parse data = .ok r) : data.head? = some r.expression := by
  match data with
  | [] => exact Except.noConfusion h
  | [e] =>
    have h1 : (⟨e, none⟩ : ParseResult) = r := by injection h
    rw [← h1]
    rfl
  | [e, g] =>
    cases g with
    | str s => exact Except.noConfusion h
    | sub s => exact Except.noConfusion h
    | int n => exact Except.noConfusion h
    | noneV => exact Except.noConfusion h
    | iter xs =>
      cases xs with
      | nil =>
        have h1 : (⟨e, some []⟩ : ParseResult) = r := by injection h
        rw [← h1]
        rfl
      | cons m ms =>
        cases hpm : pyAtomPerformNone m with
        | error err =>
          rw [show PythonExpression.parse [e, .iter (m :: ms)] =
            (match pyAtomPerformNone m with
              | .error err => Except.error err
              | .ok s => .ok ⟨e, some ((pySplitComma s).map pyStrip)⟩) from rfl, hpm] at h
          exact Except.noConfusion h
        | ok s =>
          rw [show PythonExpression.parse [e, .iter (m :: ms)] =
            (match pyAtomPerformNone m with
              | .error err => Except.error err
              | .ok s => .ok ⟨e, some ((pySplitComma s).map pyStrip)⟩) from rfl, hpm] at h
          have h1 : (⟨e, some ((pySplitComma s).map pyStrip)⟩ : ParseResult) = r := by
            injection h
          rw [← h1]
          rfl
  | e1 :: e2 :: e3 :: tl => exact Except.noConfusion h

theorem runMethod_id (pe : PythonExpression) (c : MethodCall) : runMethod pe c = pe := by
  cases c <;> rfl

theorem foldl_runMethod (calls : List MethodCall) :
    ∀ pe : PythonExpression, List.foldl runMethod pe calls = pe := by
  induction calls with
  | nil => intro pe; rfl
  | cons c cs ih =>
    intro pe
    have h1 : List.foldl runMethod pe (c :: cs) =
        List.foldl runMethod (runMethod pe c) cs := rfl
    rw [h1, runMethod_id]
    exact ih pe

theorem perform_eval_step (evalF : PyEvalFn) (pe : PythonExpression)
    (ctx : LaunchContext) (mods : List PyModule) (v : NsVal)
    (himp : importAll (pe.python_modules.map (perform_substitution ctx)) = .ok mods)
    (heval : evalF (perform_substitutions ctx pe.expression) (buildLocals mods) = .ok v) :
    pe.perform evalF ctx = .ok (pyStr v) := by
  have hshape : pe.perform evalF ctx =
      (match importAll (List.map (perform_substitution ctx) pe.python_modules) with
        | .error e => (Except.error e : Except LaunchError String)
        | .ok module_objects =>
          match evalF (perform_substitutions ctx pe.expression) (buildLocals module_objects) with
          | .error e => Except.error e
          | .ok v2 => .ok (pyStr v2)) := rfl
  rw [hshape, himp]
  show (match evalF (perform_substitutions ctx pe.expression) (buildLocals mods) with
    | .error e => (Except.error e : Except LaunchError String)
    | .ok v2 => .ok (pyStr v2)) = .ok (pyStr v)
  rw [heval]

/-- C1, counterexample: the claim that only the step-3 bindings are
resolvable fails.  With the default module list, the name `len` is not
bound in `expression_locals` (it is neither a module name nor a math
export), yet it is resolvable from the evaluated expression, because
`eval` inserts the builtins module into the supplied empty globals
dict. -/
theorem c1_builtin_len_resolvable_outside_bindings :
    importAll ["math"] = .ok [mathModule] ∧
    evalNameResolvable performEvalGlobals (buildLocals [mathModule]) "len" = true ∧
    buildLocals [mathModule] "len" = none :=
  ⟨rfl, by decide, by decide⟩

/-- C1, amended: with the empty globals dict that `perform` supplies to
`eval`, a name is resolvable from the expression if and only if it is
bound in the constructed namespace or it is a Python builtin name;
builtins stay reachable because `eval` inserts `__builtins__` into a
globals dict that lacks it. -/
theorem c1_amended_resolvable_iff_bound_or_builtin
    (mods : List PyModule) (name : String) :
    evalNameResolvable performEvalGlobals (buildLocals mods) name = true ↔
      (buildLocals mods name).isSome = true ∨ name ∈ pyBuiltinNames := by
  unfold evalNameResolvable performEvalGlobals globalsHasBuiltinsKey
  simp [List.lookup]

/-- C2: parsing with an explicitly empty second argument group yields
the empty module list, and constructing from that parse result gives an
instance with no module substitutions, whereas construction with the
`python_modules` argument omitted yields the single default `math`
module substitution. -/
theorem c2_parse_empty_second_group_yields_no_modules (e : PyValue) :
    PythonExpression.parse [e, .iter []] = .ok ⟨e, some []⟩ ∧
    (∀ pe, applyParseResult ⟨e, some []⟩ = .ok pe → pe.python_modules = []) ∧
    (∀ pe, PythonExpression.initDefault e = .ok pe →
      pe.python_modules = [Substitution.text "math"]) := by
  refine ⟨rfl, ?_, ?_⟩
  · intro pe h
    exact init_python_modules_eq e (.iter []) [] pe rfl h
  · intro pe h
    exact init_python_modules_eq e pythonModulesDefault [Substitution.text "math"] pe rfl h

/-- C2, witness: instantiation at the expression `"x"`. -/
theorem c2_witness :
    PythonExpression.parse [.str "x", .iter []] = .ok ⟨.str "x", some []⟩ ∧
    (⟨[Substitution.text "x"], []⟩ : PythonExpression).python_modules = [] ∧
    (⟨[Substitution.text "x"], [Substitution.text "math"]⟩ :
      PythonExpression).python_modules = [Substitution.text "math"] :=
  ⟨(c2_parse_empty_second_group_yields_no_modules (.str "x")).1,
   (c2_parse_empty_second_group_yields_no_modules (.str "x")).2.1
     ⟨[.text "x"], []⟩ rfl,
   (c2_parse_empty_second_group_yields_no_modules (.str "x")).2.2
     ⟨[.text "x"], [.text "math"]⟩ rfl⟩

/-- C3: with a present, non-empty second argument group whose first
element resolves (at parse time, with a `None` context) to the string
`s`, parse yields the module list obtained by splitting `s` on commas
and stripping each token. -/
theorem c3_parse_second_group_splits_on_commas (e : PyValue) (m : PyAtom)
    (rest : List PyAtom) (s : String) (h : pyAtomPerformNone m = .ok s) :
    PythonExpression.parse [e, .iter (m :: rest)] =
      .ok ⟨e, some ((pySplitComma s).map pyStrip)⟩ := by
  rw [show PythonExpression.parse [e, .iter (m :: rest)] =
    (match pyAtomPerformNone m with
      | .error err => Except.error err
      | .ok s => .ok ⟨e, some ((pySplitComma s).map pyStrip)⟩) from rfl, h]

/-- C3, witness: a second group resolving to `"math, statistics"`
yields the module list `["math", "statistics"]`. -/
theorem c3_witness :
    PythonExpression.parse [.str "x", .iter [.sub (.text "math, statistics")]] =
      .ok ⟨.str "x", some ["math", "statistics"]⟩ :=
  c3_parse_second_group_splits_on_commas (.str "x")
    (.sub (.text "math, statistics")) [] "math, statistics" rfl

/-- C4: whenever the named modules all import, the built evaluation
namespace binds each loaded module's canonical name to that module
object, and a key that is no module name is bound exactly when the math
module was loaded and the key is one of its exports (bound to the
unqualified math member); no other module's members are merged. -/
theorem c4_namespace_binds_modules_and_merges_only_math
    (names : List String) (mods : List PyModule)
    (h : importAll names = .ok mods) :
    (∀ m ∈ mods, buildLocals mods m.name = some (.moduleV m.name)) ∧
    (∀ x, x ∉ mods.map PyModule.name →
      buildLocals mods x =
        if mathModule ∈ mods ∧ x ∈ mathModuleMembers then some (.memberV "math" x)
        else none) := by
  have hreg := importAll_mem names mods h
  constructor
  · intro m hm
    rw [buildLocals_apply]
    exact lastWrite_name_of_mem mods hreg m hm
  · intro x hx
    rw [buildLocals_apply]
    exact lastWrite_not_name mods hreg x hx

/-- C4, witness: loading `math` and `statistics`, the namespace binds
the `statistics` module object under its name and the unqualified
`sqrt` to the math member. -/
theorem c4_witness :
    buildLocals [mathModule, statisticsModule] "statistics" =
      some (.moduleV "statistics") ∧
    buildLocals [mathModule, statisticsModule] "sqrt" =
      some (.memberV "math" "sqrt") := by
  have h := c4_namespace_binds_modules_and_merges_only_math
    ["math", "statistics"] [mathModule, statisticsModule] rfl
  constructor
  · exact h.1 statisticsModule (by simp)
  · have h2 := h.2 "sqrt" (by decide)
    rw [h2, if_pos ⟨by simp, by decide⟩]

/-- C5: performing an instance built from the expression text `3 + 4`
with the default modules, under any live context and any interpreter
that evaluates the source `3 + 4` in the built namespace to the integer
7, returns the string `7`: the fragments are resolved, concatenated,
evaluated, and converted with `str()`. -/
theorem c5_perform_evaluates_concatenated_expression (evalF : PyEvalFn)
    (ctx : LaunchContext)
    (h : evalF "3 + 4" (buildLocals [mathModule]) = .ok (.intV 7)) :
    ∀ pe, PythonExpression.initDefault (.str "3 + 4") = .ok pe →
      pe.perform evalF ctx = .ok "7" := by
  intro pe hpe
  have h0 : PythonExpression.initDefault (.str "3 + 4") =
      .ok ⟨[Substitution.text "3 + 4"], [Substitution.text "math"]⟩ := rfl
  rw [h0] at hpe
  have hval : (⟨[Substitution.text "3 + 4"], [Substitution.text "math"]⟩ :
      PythonExpression) = pe := by injection hpe
  rw [← hval]
  exact perform_eval_step evalF
    ⟨[Substitution.text "3 + 4"], [Substitution.text "math"]⟩ ctx
    [mathModule] (.intV 7) rfl h

/-- C5, witness: the stub interpreter and an arbitrary live context. -/
theorem c5_witness :
    PythonExpression.perform mockEvalArith
      ⟨[Substitution.text "3 + 4"], [Substitution.text "math"]⟩
      (fun _ => "") = .ok "7" :=
  c5_perform_evaluates_concatenated_expression mockEvalArith (fun _ => "") rfl
    ⟨[Substitution.text "3 + 4"], [Substitution.text "math"]⟩ rfl

/-- C6: whenever construction with the `python_modules` argument
omitted succeeds, the stored module list is exactly the normalization
of `['math']`: one constant substitution for the name `math`. -/
theorem c6_default_python_modules_is_math (e : PyValue) (pe : PythonExpression)
    (h : PythonExpression.initDefault e = .ok pe) :
    pe.python_modules = [Substitution.text "math"] ∧
    normalize_to_list_of_substitutions pythonModulesDefault =
      .ok [Substitution.text "math"] :=
  ⟨init_python_modules_eq e pythonModulesDefault [Substitution.text "math"] pe rfl h,
   rfl⟩

/-- C6, witness: instantiation at the expression `"1"`. -/
theorem c6_witness :
    (⟨[Substitution.text "1"], [Substitution.text "math"]⟩ :
      PythonExpression).python_modules = [Substitution.text "math"] ∧
    normalize_to_list_of_substitutions pythonModulesDefault =
      .ok [Substitution.text "math"] :=
  c6_default_python_modules_is_math (.str "1")
    ⟨[.text "1"], [.text "math"]⟩ rfl

/-- C7: parse raises the argument-count error exactly when the number
of argument groups is 0 or greater than 2, and whenever parse succeeds
the first group is passed through unchanged as the expression. -/
theorem c7_parse_argument_count_error_iff (data : List PyValue) :
    (PythonExpression.parse data = .error (.typeError argCountErrorMsg) ↔
      data.length = 0 ∨ 2 < data.length) ∧
    (∀ r, PythonExpression.parse data = .ok r → data.head? = some r.expression) := by
  constructor
  · constructor
    · intro h
      match data with
      | [] => left; rfl
      | [e] =>
        rw [show PythonExpression.parse [e] = .ok ⟨e, none⟩ from rfl] at h
        exact Except.noConfusion h
      | [e, g] => exact absurd h (parse_two_not_argcount e g)
      | e1 :: e2 :: e3 :: tl => right; simp
    · intro h
      match data with
      | [] => rfl
      | [e] => simp at h
      | [e, g] => simp at h
      | e1 :: e2 :: e3 :: tl => rfl
  · exact parse_ok_expression data

/-- C7, witness: one group succeeds with the group passed through. -/
theorem c7_witness : [PyValue.str "a"].head? = some (PyValue.str "a") :=
  (c7_parse_argument_count_error_iff [.str "a"]).2 ⟨.str "a", none⟩ rfl

/-- C8: construction fails with the argument-type error naming the
offending parameter and the type name `PythonExpression` when
`expression` is not a string, substitution or iterable, and likewise
for `python_modules` when `expression` is acceptable. -/
theorem c8_init_type_error_identifies_parameter (e m : PyValue) :
    (isStrSubOrIterable e = false →
      PythonExpression.init e m =
        .error (.argTypeError "expression" "PythonExpression")) ∧
    (isStrSubOrIterable e = true → isStrSubOrIterable m = false →
      PythonExpression.init e m =
        .error (.argTypeError "python_modules" "PythonExpression")) := by
  constructor
  · intro h
    simp [PythonExpression.init, ensure_argument_type, h]
  · intro he hm
    simp [PythonExpression.init, ensure_argument_type, he, hm]

/-- C8, witness: an integer for either parameter. -/
theorem c8_witness :
    PythonExpression.init (.int 5) pythonModulesDefault =
      .error (.argTypeError "expression" "PythonExpression") ∧
    PythonExpression.init (.str "x") (.int 5) =
      .error (.argTypeError "python_modules" "PythonExpression") :=
  ⟨(c8_init_type_error_identifies_parameter (.int 5) pythonModulesDefault).1 rfl,
   (c8_init_type_error_identifies_parameter (.str "x") (.int 5)).2 rfl rfl⟩

/-- C9: no sequence of perform, describe or accessor calls changes the
instance: the post-state after any call sequence is the construction
state, both stored sequences included, and performing again after a
perform returns the same result. -/
theorem c9_methods_do_not_mutate (pe : PythonExpression) (calls : List MethodCall) :
    List.foldl runMethod pe calls = pe ∧
    (List.foldl runMethod pe calls).expression = pe.expression ∧
    (List.foldl runMethod pe calls).python_modules = pe.python_modules ∧
    (∀ (f : PyEvalFn) (ctx : LaunchContext),
      ((pe.performM f ctx).2).perform f ctx = pe.perform f ctx) := by
  have hfold := foldl_runMethod calls pe
  exact ⟨hfold, by rw [hfold], by rw [hfold], fun f ctx => rfl⟩

/-- C10: with a non-empty second argument group, parse depends only on
the group's first element, so any further elements are ignored, and the
first element is performed with the `None` context: its perform-on-None
failure is exactly the parse failure. -/
theorem c10_parse_ignores_extra_second_group_elements (e : PyValue)
    (m : PyAtom) (rest rest' : List PyAtom) :
    PythonExpression.parse [e, .iter (m :: rest)] =
      PythonExpression.parse [e, .iter (m :: rest')] ∧
    (∀ err, pyAtomPerformNone m = .error err →
      PythonExpression.parse [e, .iter (m :: rest)] = .error err) := by
  constructor
  · rfl
  · intro err h
    rw [show PythonExpression.parse [e, .iter (m :: rest)] =
      (match pyAtomPerformNone m with
        | .error err => Except.error err
        | .ok s => .ok ⟨e, some ((pySplitComma s).map pyStrip)⟩) from rfl, h]

/-- C10, witness: a context-dependent first element fails as
perform-on-None fails, while a later text element is ignored. -/
theorem c10_witness :
    PythonExpression.parse
      [.str "x", .iter [.sub (.ctxDep "cfg"), .sub (.text "ignored")]] =
      .error (.attributeError "NoneType object has no usable context") :=
  (c10_parse_ignores_extra_second_group_elements (.str "x")
    (.sub (.ctxDep "cfg")) [.sub (.text "ignored")] []).2 _ rfl

end LaunchPy
